import Mathlib

/-!
Shallow embedding of `src/todo_app_with_dates.py` (task store, date
normalizer, filter engine) and proofs of the specification claims.

The interactive functions of the source read their inputs with `input(...)`
and report via `print(...)`; here each operation takes those inputs as
arguments and returns the new collection together with flags recording the
observable outcome (whether the task was found, whether `save_tasks` was
called, whether a date-parse failure was reported).
-/

set_option autoImplicit false

namespace Todo

/-- Python `str.strip()`: remove leading and trailing whitespace (modelled
on the ASCII whitespace characters recognised by `Char.isWhitespace`). -/
def pyStrip (s : String) : String :=
  String.mk (((s.data.dropWhile Char.isWhitespace).reverse.dropWhile Char.isWhitespace).reverse)

/-- Python `str.lower()` (ASCII letters, which is all the app compares). -/
def pyLower (s : String) : String := String.mk (s.data.map Char.toLower)

/-- A calendar date as produced by `datetime.date`. -/
structure Date where
  year : Nat
  month : Nat
  day : Nat
deriving DecidableEq, Repr

/-- Gregorian leap-year test, as in Python's `calendar`/`datetime`. -/
def isLeapYear (y : Nat) : Bool :=
  (y % 4 == 0 && y % 100 != 0) || y % 400 == 0

/-- Number of days in a month, as validated by the `datetime` constructor. -/
def daysInMonth (y m : Nat) : Nat :=
  if m = 2 then (if isLeapYear y then 29 else 28)
  else if m = 4 ∨ m = 6 ∨ m = 9 ∨ m = 11 then 30
  else 31

/-- The `datetime.date(y, m, d)` constructor succeeds exactly on these
values (`MINYEAR = 1`, `MAXYEAR = 9999`). -/
def validYMD (y m d : Nat) : Bool :=
  decide (1 ≤ y) && decide (y ≤ 9999) && decide (1 ≤ m) && decide (m ≤ 12) &&
    decide (1 ≤ d) && decide (d ≤ daysInMonth y m)

/-- `validYMD` packaged over a `Date`. -/
def validDate (d : Date) : Bool := validYMD d.year d.month d.day

/-- The decimal digit character for `n % 10`. -/
def digitChar (n : Nat) : Char := Char.ofNat ('0'.toNat + n % 10)

/-- Four-digit zero-padded decimal, for years `≤ 9999`. -/
def pad4 (n : Nat) : String :=
  String.mk [digitChar (n / 1000), digitChar (n / 100), digitChar (n / 10), digitChar n]

/-- Two-digit zero-padded decimal, for months and days. -/
def pad2 (n : Nat) : String :=
  String.mk [digitChar (n / 10), digitChar n]

/-- `date.isoformat()`: the canonical `YYYY-MM-DD` rendering. -/
def isoformat (d : Date) : String :=
  pad4 d.year ++ "-" ++ pad2 d.month ++ "-" ++ pad2 d.day

/-- Numeric value of a digit character. -/
def digitVal (c : Char) : Nat := c.toNat - '0'.toNat

/-- Value of a two-digit number written with characters `c1 c2`. -/
def twoDigitVal (c1 c2 : Char) : Nat := digitVal c1 * 10 + digitVal c2

/-- Ordered candidate matches for a 1-or-2-digit numeric `strptime` field
(CPython compiles `%d` to the regex `3[01]|[12]\d|0[1-9]|[1-9]` and `%m` to
`1[0-2]|0[1-9]|[1-9]`): the two-digit alternatives come first and accept
exactly the values `1..bound`, then the single nonzero digit. Each
candidate carries the unconsumed remainder of the input. -/
def numCandidates (bound : Nat) : List Char → List (Nat × List Char)
  | c1 :: c2 :: rest =>
    (if c1.isDigit && c2.isDigit && decide (1 ≤ twoDigitVal c1 c2) &&
        decide (twoDigitVal c1 c2 ≤ bound) then
      [(twoDigitVal c1 c2, rest)]
    else []) ++
    (if c1.isDigit && decide (1 ≤ digitVal c1) then [(digitVal c1, c2 :: rest)] else [])
  | [c1] =>
    if c1.isDigit && decide (1 ≤ digitVal c1) then [(digitVal c1, [])] else []
  | [] => []

/-- Case-insensitive match of the lowercase name `ns` against a prefix of
the input, returning the remainder (CPython's `_strptime` compiles the
month-name alternatives with `re.IGNORECASE`). -/
def stripNameCI : List Char → List Char → Option (List Char)
  | [], s => some s
  | _ :: _, [] => none
  | n :: ns, c :: cs => if c.toLower = n then stripNameCI ns cs else none

/-- Abbreviated English month names (`%b`), lowercase, in month order. -/
def monthAbbrNames : List String :=
  ["jan", "feb", "mar", "apr", "may", "jun", "jul", "aug", "sep", "oct", "nov", "dec"]

/-- Full English month names (`%B`), lowercase, in month order. No name is
a prefix of another, so at most one alternative of the compiled regex can
match at a given position and the alternation order is irrelevant. -/
def monthFullNames : List String :=
  ["january", "february", "march", "april", "may", "june", "july", "august",
   "september", "october", "november", "december"]

/-- First month name (1-based index `k` onward) matching a prefix of the
input, with the remainder. -/
def monthNameLookup : List String → Nat → List Char → Option (Nat × List Char)
  | [], _, _ => none
  | n :: ns, k, s =>
    match stripNameCI n.toList s with
    | some rest => some (k, rest)
    | none => monthNameLookup ns (k + 1) s

/-- Interpreter for the `strptime` format strings used by `parse_date`,
matching the whole input (CPython raises `ValueError: unconverted data
remains` unless the compiled regex consumes the entire string). Recognised
directives: `%Y` (exactly four digits), `%m`, `%d` (1-2 digits, tried
two-digit first with backtracking into the continuation, as the regex
alternation does), `%b`, `%B` (English month names, case-insensitive). A
space in the format matches one or more whitespace characters (CPython
rewrites format whitespace to `\s+`); in the formats used here no
directive can start with whitespace, so consuming the maximal run is
faithful. Any other character matches itself case-insensitively. Returns
the accumulated `(year, month, day)` fields on success. -/
def runFmt : List Char → List Char → Nat → Nat → Nat → Option (Nat × Nat × Nat)
  | [], s, y, m, d => if s.isEmpty then some (y, m, d) else none
  | ['%'], _, _, _, _ => none
  | '%' :: spec :: fr, s, y, m, d =>
    if spec = 'Y' then
      match s with
      | a :: b :: c :: e :: rest =>
        if a.isDigit && b.isDigit && c.isDigit && e.isDigit then
          runFmt fr rest (twoDigitVal a b * 100 + twoDigitVal c e) m d
        else none
      | _ => none
    else if spec = 'm' then
      match numCandidates 12 s with
      | [] => none
      | [(v, rest)] => runFmt fr rest y v d
      | (v1, r1) :: (v2, r2) :: _ =>
        match runFmt fr r1 y v1 d with
        | some res => some res
        | none => runFmt fr r2 y v2 d
    else if spec = 'd' then
      match numCandidates 31 s with
      | [] => none
      | [(v, rest)] => runFmt fr rest y m v
      | (v1, r1) :: (v2, r2) :: _ =>
        match runFmt fr r1 y m v1 with
        | some res => some res
        | none => runFmt fr r2 y m v2
    else if spec = 'b' then
      match monthNameLookup monthAbbrNames 1 s with
      | some (v, rest) => runFmt fr rest y v d
      | none => none
    else if spec = 'B' then
      match monthNameLookup monthFullNames 1 s with
      | some (v, rest) => runFmt fr rest y v d
      | none => none
    else none
  | c :: fr, s, y, m, d =>
    if c = ' ' then
      match s with
      | c2 :: rest =>
        if c2.isWhitespace then runFmt fr (rest.dropWhile Char.isWhitespace) y m d else none
      | [] => none
    else
      match s with
      | c2 :: rest => if c2.toLower = c.toLower then runFmt fr rest y m d else none
      | [] => none

/-- `datetime.strptime(date_str, fmt).date()`, restricted to the date
directives above: fields default to 1900-01-01, and the resulting values
must form a constructible `datetime` (otherwise `ValueError`). -/
def strptimeDate (date_str fmt : String) : Option Date :=
  match runFmt fmt.toList date_str.toList 1900 1 1 with
  | some (y, m, d) => if validYMD y m d then some ⟨y, m, d⟩ else none
  | none => none

/-- `datetime.fromisoformat(s).date()`, modelled for date-only inputs:
exactly the strings `YYYY-MM-DD` denoting a constructible date (the
Python ≤3.10 grammar restricted to its date component; datetime-with-time
inputs are not used by any claim and are treated as unparseable). -/
def fromisoformat (s : String) : Option Date :=
  match s.toList with
  | [y1, y2, y3, y4, h1, m1, m2, h2, d1, d2] =>
    if y1.isDigit && y2.isDigit && y3.isDigit && y4.isDigit && h1 = '-' &&
        m1.isDigit && m2.isDigit && h2 = '-' && d1.isDigit && d2.isDigit then
      if validYMD (twoDigitVal y1 y2 * 100 + twoDigitVal y3 y4) (twoDigitVal m1 m2)
          (twoDigitVal d1 d2) then
        some ⟨twoDigitVal y1 y2 * 100 + twoDigitVal y3 y4, twoDigitVal m1 m2, twoDigitVal d1 d2⟩
      else none
    else none
  | _ => none

/-- The `formats` list of `parse_date`, in source order. -/
def formats : List String :=
  ["%Y-%m-%d", "%d/%m/%Y", "%d-%m-%Y", "%b %d %Y", "%B %d %Y", "%d %b %Y", "%d %B %Y"]

/-- The `for fmt in formats` loop of `parse_date`: first successful
`strptime` wins. -/
def tryFormats : List String → String → Option Date
  | [], _ => none
  | fmt :: rest, s =>
    match strptimeDate s fmt with
    | some d => some d
    | none => tryFormats rest s

/-- The body of `parse_date` after the `date_str = date_str.strip()` line:
the fixed formats are tried in order, then `fromisoformat` as a last
resort, the successful parse being returned as `dt.date().isoformat()`; if
everything fails the result is `""`. -/
def parseStripped (stripped : String) : String :=
  match tryFormats formats stripped with
  | some d => isoformat d
  | none =>
    match fromisoformat stripped with
    | some d => isoformat d
    | none => ""

/-- `parse_date(date_str)`: falsy (empty) input yields `""`; otherwise the
input is stripped (`date_str = date_str.strip()`) and handed to the format
cascade of `parseStripped`. -/
def parse_date (date_str : String) : String :=
  if date_str = "" then "" else parseStripped (pyStrip date_str)

/-- A task record, with the fields created by `add_task` (`due_date` is the
stored ISO string, `""` meaning "no due date"; `created_at` is the opaque
`datetime.now().isoformat()` stamp). -/
structure Task where
  id : Int
  title : String
  due_date : String
  completed : Bool
  created_at : String
deriving DecidableEq, Repr

/-- `generate_id`'s `max(ids)` over a nonempty list of Python ints. -/
def listMaxInt : List Int → Int
  | [] => 0
  | x :: xs => xs.foldl max x

/-- `generate_id(tasks)`: 1 if the list is empty, otherwise
`max(ids) + 1` where `ids = [task.get("id", 0) for task in tasks]`. -/
def generate_id (tasks : List Task) : Int :=
  if tasks.isEmpty then 1
  else listMaxInt (tasks.map fun task => task.id) + 1

/-- `add_task(tasks)` with the two `input(...)` strings and the
`datetime.now().isoformat()` stamp supplied as arguments. Returns the new
list and whether `save_tasks` was called (the title-validation failure
returns before any mutation). -/
def add_task (tasks : List Task) (title_input due_input created_at : String) :
    List Task × Bool :=
  let title := pyStrip title_input
  if title = "" then (tasks, false)
  else
    let due_date := parse_date due_input
    let new_task : Task :=
      { id := generate_id tasks, title := title, due_date := due_date,
        completed := false, created_at := created_at }
    (tasks ++ [new_task], true)

/-- `find_task_by_id(tasks, task_id)`: first task with matching id. -/
def find_task_by_id (tasks : List Task) (task_id : Int) : Option Task :=
  tasks.find? fun task => task.id = task_id

/-- In-place mutation of the first task with matching id, as performed by
`mark_complete` and `edit_task` on the object returned by
`find_task_by_id` (the list itself keeps its order). -/
def updateFirst (tasks : List Task) (task_id : Int) (f : Task → Task) : List Task :=
  match tasks with
  | [] => []
  | t :: rest => if t.id = task_id then f t :: rest else t :: updateFirst rest task_id f

/-- Outcome of `mark_complete` / `delete_task`: the resulting list, whether
the task was found, and whether `save_tasks` was called. -/
structure OpResult where
  tasks : List Task
  found : Bool
  saved : Bool
deriving DecidableEq, Repr

/-- `mark_complete(tasks)` with the (well-formed) id supplied as an
argument: not-found returns without mutation, otherwise
`task['completed'] = not task.get('completed', False)` and save. -/
def mark_complete (tasks : List Task) (task_id : Int) : OpResult :=
  match find_task_by_id tasks task_id with
  | none => ⟨tasks, false, false⟩
  | some _ =>
    ⟨updateFirst tasks task_id (fun task => { task with completed := !task.completed }),
      true, true⟩

/-- `delete_task(tasks)` with the id supplied as an argument: not-found
returns without mutation, otherwise `tasks.remove(task)` (removal of the
first element equal to the found task — which is the first id match, since
every earlier task has a different id) and save. -/
def delete_task (tasks : List Task) (task_id : Int) : OpResult :=
  match find_task_by_id tasks task_id with
  | none => ⟨tasks, false, false⟩
  | some task => ⟨tasks.erase task, true, true⟩

/-- The field updates `edit_task` applies to the found task: a non-blank
stripped title replaces the title; the due-date input is stripped, a
case-insensitive `clear` stores `""`, a blank keeps the field, and any
other value is stored only if `parse_date` succeeds. -/
def editTaskFields (title_input due_input : String) (task : Task) : Task :=
  let new_title := pyStrip title_input
  let task := if new_title ≠ "" then { task with title := new_title } else task
  let new_due := pyStrip due_input
  if pyLower new_due = "clear" then { task with due_date := "" }
  else if new_due ≠ "" then
    let parsed := parse_date new_due
    if parsed ≠ "" then { task with due_date := parsed } else task
  else task

/-- Whether `edit_task` prints "Couldn't parse that date. Keeping previous
due date.": the stripped due input is neither `clear` nor blank and
`parse_date` fails on it. -/
def editParseFailed (due_input : String) : Bool :=
  let new_due := pyStrip due_input
  decide (pyLower new_due ≠ "clear") && decide (new_due ≠ "") &&
    decide (parse_date new_due = "")

/-- Outcome of `edit_task`: resulting list, whether the task was found,
whether `save_tasks` was called, and whether a date-parse failure was
reported. -/
structure EditResult where
  tasks : List Task
  found : Bool
  saved : Bool
  parseFailed : Bool
deriving DecidableEq, Repr

/-- `edit_task(tasks)` with the id and the two `input(...)` strings
supplied as arguments: not-found returns without mutation; otherwise the
found task's fields are updated per `editTaskFields` and the collection is
saved unconditionally. -/
def edit_task (tasks : List Task) (task_id : Int) (title_input due_input : String) :
    EditResult :=
  match find_task_by_id tasks task_id with
  | none => ⟨tasks, false, false, false⟩
  | some _ =>
    ⟨updateFirst tasks task_id (editTaskFields title_input due_input),
      true, true, editParseFailed due_input⟩

/-- `datetime.date` ordering: lexicographic on (year, month, day). -/
def dateLt (a b : Date) : Bool :=
  decide (a.year < b.year) ||
    (decide (a.year = b.year) && (decide (a.month < b.month) ||
      (decide (a.month = b.month) && decide (a.day < b.day))))

/-- The predicate deciding whether `show_tasks`'s `for task in tasks` loop
appends `task` to `filtered`, mirroring the `elif` chain: `None`/`'all'`
keep everything; `'completed'`/`'incomplete'` test the flag;
`'due_today'`/`'overdue'` require a truthy (non-empty) `due_date` that
`datetime.fromisoformat` accepts (an exception is swallowed by
`except: pass`, excluding the task) and compare its date to `now`;
any other filter value matches no branch. -/
def matchesFilter (filter_by : Option String) (now : Date) (task : Task) : Bool :=
  if filter_by = none ∨ filter_by = some "all" then true
  else if filter_by = some "completed" then task.completed
  else if filter_by = some "incomplete" then !task.completed
  else if filter_by = some "due_today" then
    if task.due_date ≠ "" then
      match fromisoformat task.due_date with
      | some d => d = now
      | none => false
    else false
  else if filter_by = some "overdue" then
    if task.due_date ≠ "" ∧ !task.completed then
      match fromisoformat task.due_date with
      | some d => dateLt d now
      | none => false
    else false
  else false

/-- The `filtered` list computed by `show_tasks(tasks, filter_by)` with the
reference date `now` supplied as an argument: the tasks appended by the
loop, in original order. -/
def filterTasks (tasks : List Task) (filter_by : Option String) (now : Date) : List Task :=
  tasks.filter (matchesFilter filter_by now)

/-! ### Spec-side definitions (written from the spec's words, for the
refinement claims) -/

/-- A stored `due_date` value in the shape the data-model invariant (spec
§3) promises: absent (`""`) or the canonical `YYYY-MM-DD` rendering of a
constructible calendar date. -/
def canonicalDue (s : String) : Prop :=
  s = "" ∨ ∃ d : Date, validDate d = true ∧ s = isoformat d

/-- The task's due date as an abstract calendar date (spec §3: `due_date`
is an optional canonical calendar date, the empty string meaning absent; a
stored value that is not a canonical date denotes no usable due date and
is defensively excluded by the date filters, spec §4.3). -/
def specDueDate (t : Task) : Option Date :=
  if t.due_date = "" then none else fromisoformat t.due_date

/-- Spec §4.3 predicate for `completed`: `completed == true`. -/
def specCompleted (t : Task) : Bool := t.completed

/-- Spec §4.3 predicate for `incomplete`: `completed == false`. -/
def specIncomplete (t : Task) : Bool := !t.completed

/-- Spec §4.3 predicate for `due_today`: has a due date AND due date ==
today (regardless of completion). -/
def specDueToday (today : Date) (t : Task) : Bool :=
  specDueDate t = some today

/-- Spec §4.3 predicate for `overdue`: has a due date AND `completed ==
false` AND due date < today. -/
def specOverdue (today : Date) (t : Task) : Bool :=
  match specDueDate t with
  | some d => !t.completed && dateLt d today
  | none => false

/-! ### Concrete collections used by the spec's examples -/

/-- Task A of the spec's filter example: due yesterday, not completed. -/
def taskA : Task :=
  { id := 1, title := "A", due_date := "2025-06-14", completed := false, created_at := "t1" }

/-- Task B of the spec's filter example: due today, not completed. -/
def taskB : Task :=
  { id := 2, title := "B", due_date := "2025-06-15", completed := false, created_at := "t2" }

/-- Task C of the spec's filter example: due tomorrow, not completed. -/
def taskC : Task :=
  { id := 3, title := "C", due_date := "2025-06-16", completed := false, created_at := "t3" }

/-- Task D of the spec's filter example: due yesterday, completed. -/
def taskD : Task :=
  { id := 4, title := "D", due_date := "2025-06-14", completed := true, created_at := "t4" }

/-- The spec's filter-example collection. -/
def exampleTasks : List Task := [taskA, taskB, taskC, taskD]

/-- The reference date of the filter example: the day between A's and C's
due dates. -/
def exampleToday : Date := ⟨2025, 6, 15⟩

/-- A collection whose ids are `{1, 3, 5}`, for the `nextId` example. -/
def tasksOneThreeFive : List Task :=
  [{ id := 1, title := "x", due_date := "", completed := false, created_at := "" },
   { id := 3, title := "y", due_date := "", completed := false, created_at := "" },
   { id := 5, title := "z", due_date := "", completed := true, created_at := "" }]

/-! ### Helper lemmas -/

theorem listMaxInt_mem (x : Int) (xs : List Int) : listMaxInt (x :: xs) ∈ x :: xs := by
  induction xs generalizing x with
  | nil => simp [listMaxInt]
  | cons y ys ih =>
    have hstep : listMaxInt (x :: y :: ys) = listMaxInt (max x y :: ys) := by
      simp [listMaxInt, List.foldl]
    rw [hstep]
    rcases List.mem_cons.mp (ih (max x y)) with hh | hh
    · rw [hh]
      rcases max_choice x y with hm | hm <;> rw [hm]
      · exact List.mem_cons_self _ _
      · exact List.mem_cons_of_mem _ (List.mem_cons_self _ _)
    · exact List.mem_cons_of_mem _ (List.mem_cons_of_mem _ hh)

theorem le_listMaxInt (x : Int) (xs : List Int) : ∀ z ∈ x :: xs, z ≤ listMaxInt (x :: xs) := by
  induction xs generalizing x with
  | nil => intro z hz; simp at hz; simp [listMaxInt, hz]
  | cons y ys ih =>
    intro z hz
    have hstep : listMaxInt (x :: y :: ys) = listMaxInt (max x y :: ys) := by
      simp [listMaxInt, List.foldl]
    rw [hstep]
    have hmax : max x y ≤ listMaxInt (max x y :: ys) :=
      ih (max x y) (max x y) (List.mem_cons_self _ _)
    rcases List.mem_cons.mp hz with rfl | hz1
    · exact le_trans (le_max_left _ _) hmax
    · rcases List.mem_cons.mp hz1 with rfl | hz2
      · exact le_trans (le_max_right _ _) hmax
      · exact ih (max x y) z (List.mem_cons_of_mem _ hz2)

theorem strptimeDate_valid {s fmt : String} {d : Date}
    (h : strptimeDate s fmt = some d) : validDate d = true := by
  unfold strptimeDate at h
  split at h
  · split at h
    · injection h with h1
      subst h1
      assumption
    · cases h
  · cases h

theorem tryFormats_valid :
    ∀ (fmts : List String) (s : String) (d : Date),
      tryFormats fmts s = some d → validDate d = true
  | [], _, _, h => by cases h
  | fmt :: rest, s, d, h => by
    unfold tryFormats at h
    split at h
    · injection h with h1
      subst h1
      exact strptimeDate_valid (by assumption)
    · exact tryFormats_valid rest s d h

theorem fromisoformat_valid {s : String} {d : Date}
    (h : fromisoformat s = some d) : validDate d = true := by
  unfold fromisoformat at h
  split at h
  · split at h
    · split at h
      · injection h with h1
        subst h1
        assumption
      · cases h
    · cases h
  · cases h

theorem parseStripped_canonical (s : String) : canonicalDue (parseStripped s) := by
  unfold parseStripped
  split
  · exact Or.inr ⟨_, tryFormats_valid _ _ _ (by assumption), rfl⟩
  · split
    · exact Or.inr ⟨_, fromisoformat_valid (by assumption), rfl⟩
    · exact Or.inl rfl

theorem parse_date_canonical (s : String) : canonicalDue (parse_date s) := by
  unfold parse_date
  split
  · exact Or.inl rfl
  · exact parseStripped_canonical _

theorem updateFirst_eq_self (f : Task → Task) (hf : ∀ t, f t = t)
    (tasks : List Task) (i : Int) : updateFirst tasks i f = tasks := by
  induction tasks with
  | nil => rfl
  | cons t rest ih =>
    unfold updateFirst
    split
    · rw [hf]
    · rw [ih]

theorem find_updateFirst (f : Task → Task) (hf : ∀ t, (f t).id = t.id)
    (tasks : List Task) (i : Int) :
    find_task_by_id (updateFirst tasks i f) i = Option.map f (find_task_by_id tasks i) := by
  induction tasks with
  | nil => rfl
  | cons t rest ih =>
    unfold updateFirst
    by_cases h : t.id = i
    · rw [if_pos h]
      unfold find_task_by_id
      rw [List.find?_cons_of_pos _ (by simp [hf, h]), List.find?_cons_of_pos _ (by simp [h])]
      rfl
    · rw [if_neg h]
      unfold find_task_by_id
      rw [List.find?_cons_of_neg _ (by simp [hf, h]), List.find?_cons_of_neg _ (by simp [h])]
      exact ih

theorem updateFirst_updateFirst (f g : Task → Task) (hf : ∀ t, (f t).id = t.id)
    (tasks : List Task) (i : Int) :
    updateFirst (updateFirst tasks i f) i g = updateFirst tasks i (fun t => g (f t)) := by
  induction tasks with
  | nil => rfl
  | cons t rest ih =>
    by_cases h : t.id = i
    · simp [updateFirst, h, hf]
    · simp [updateFirst, h, ih]

theorem mem_updateFirst {f : Task → Task} {tasks : List Task} {i : Int} {t : Task}
    (h : t ∈ updateFirst tasks i f) : t ∈ tasks ∨ ∃ t0 ∈ tasks, t = f t0 := by
  induction tasks with
  | nil => cases h
  | cons a rest ih =>
    unfold updateFirst at h
    split at h
    · rcases List.mem_cons.mp h with h1 | h1
      · exact Or.inr ⟨a, List.mem_cons_self _ _, h1⟩
      · exact Or.inl (List.mem_cons_of_mem _ h1)
    · rcases List.mem_cons.mp h with h1 | h1
      · exact Or.inl (h1 ▸ List.mem_cons_self _ _)
      · rcases ih h1 with h2 | ⟨t0, ht0, he⟩
        · exact Or.inl (List.mem_cons_of_mem _ h2)
        · exact Or.inr ⟨t0, List.mem_cons_of_mem _ ht0, he⟩

theorem pyLower_empty : pyLower "" = "" := rfl

theorem editTaskFields_spec (ti di : String) (t : Task) :
    editTaskFields ti di t =
      { t with
        title := if pyStrip ti = "" then t.title else pyStrip ti,
        due_date :=
          if pyLower (pyStrip di) = "clear" then ""
          else if pyStrip di = "" then t.due_date
          else if parse_date (pyStrip di) = "" then t.due_date
          else parse_date (pyStrip di) } := by
  obtain ⟨tid, ttl, tdue, tcomp, tcre⟩ := t
  unfold editTaskFields
  by_cases h1 : pyStrip ti = "" <;> by_cases h2 : pyLower (pyStrip di) = "clear" <;>
    by_cases h3 : pyStrip di = "" <;> by_cases h4 : parse_date (pyStrip di) = "" <;>
      simp [h1, h2, h3, h4, pyLower_empty]

theorem editTaskFields_title (ti di : String) (t : Task) :
    (editTaskFields ti di t).title =
      if pyStrip ti = "" then t.title else pyStrip ti := by
  rw [editTaskFields_spec]

theorem editTaskFields_due (ti di : String) (t : Task) :
    (editTaskFields ti di t).due_date =
      if pyLower (pyStrip di) = "clear" then ""
      else if pyStrip di = "" then t.due_date
      else if parse_date (pyStrip di) = "" then t.due_date
      else parse_date (pyStrip di) := by
  rw [editTaskFields_spec]

theorem editTaskFields_same_id (ti di : String) (t : Task) :
    (editTaskFields ti di t).id = t.id := by
  rw [editTaskFields_spec]

theorem editTaskFields_same_completed (ti di : String) (t : Task) :
    (editTaskFields ti di t).completed = t.completed := by
  rw [editTaskFields_spec]

theorem editTaskFields_same_created (ti di : String) (t : Task) :
    (editTaskFields ti di t).created_at = t.created_at := by
  rw [editTaskFields_spec]

theorem editTaskFields_blank (t : Task) : editTaskFields "" "" t = t := rfl

theorem editTaskFields_unparseable (t : Task) : editTaskFields "" "not a date" t = t := rfl

theorem matchesFilter_completed (today : Date) (t : Task) :
    matchesFilter (some "completed") today t = specCompleted t := by
  simp [matchesFilter, specCompleted]

theorem matchesFilter_incomplete (today : Date) (t : Task) :
    matchesFilter (some "incomplete") today t = specIncomplete t := by
  simp [matchesFilter, specIncomplete]

theorem matchesFilter_due_today (today : Date) (t : Task) :
    matchesFilter (some "due_today") today t = specDueToday today t := by
  unfold matchesFilter specDueToday specDueDate
  by_cases hd : t.due_date = ""
  · simp [hd]
  · cases hf : fromisoformat t.due_date <;> simp [hd, hf]

theorem matchesFilter_overdue (today : Date) (t : Task) :
    matchesFilter (some "overdue") today t = specOverdue today t := by
  unfold matchesFilter specOverdue specDueDate
  by_cases hd : t.due_date = ""
  · simp [hd]
  · by_cases hc : t.completed <;> cases hf : fromisoformat t.due_date <;>
      simp [hd, hc, hf]

/-! ### Claim theorems -/

/-- C1: For every collection and reference date `today`, the filter engine
classifies tasks exactly by the spec predicates — `completed` selects
tasks with `completed == true`, `incomplete` those with `completed ==
false`, `due_today` those with a due date equal to today (regardless of
completion), and `overdue` those with a due date, not completed, and due
strictly before today; in particular on the spec's example tasks
A(due=yesterday), B(due=today), C(due=tomorrow), D(due=yesterday,
completed) the four filters yield [A], [B], [D] resp. [A, B, C]. -/
theorem filter_engine_classifies_by_spec_predicates :
    (∀ (tasks : List Task) (today : Date),
      filterTasks tasks (some "completed") today = tasks.filter specCompleted ∧
      filterTasks tasks (some "incomplete") today = tasks.filter specIncomplete ∧
      filterTasks tasks (some "due_today") today = tasks.filter (specDueToday today) ∧
      filterTasks tasks (some "overdue") today = tasks.filter (specOverdue today)) ∧
    filterTasks exampleTasks (some "overdue") exampleToday = [taskA] ∧
    filterTasks exampleTasks (some "due_today") exampleToday = [taskB] ∧
    filterTasks exampleTasks (some "completed") exampleToday = [taskD] ∧
    filterTasks exampleTasks (some "incomplete") exampleToday = [taskA, taskB, taskC] := by
  refine ⟨fun tasks today => ⟨?_, ?_, ?_, ?_⟩, by decide, by decide, by decide, by decide⟩
  · unfold filterTasks
    exact List.filter_congr fun t _ => matchesFilter_completed today t
  · unfold filterTasks
    exact List.filter_congr fun t _ => matchesFilter_incomplete today t
  · unfold filterTasks
    exact List.filter_congr fun t _ => matchesFilter_due_today today t
  · unfold filterTasks
    exact List.filter_congr fun t _ => matchesFilter_overdue today t

/-- C2: `generate_id` returns 1 on an empty collection and otherwise one
greater than the maximum id present; on ids `{1, 3, 5}` it returns 6. -/
theorem generate_id_one_plus_max :
    (∀ tasks : List Task, tasks = [] → generate_id tasks = 1) ∧
    (∀ tasks : List Task, tasks ≠ [] →
      (∃ t ∈ tasks, generate_id tasks = t.id + 1) ∧
        ∀ t ∈ tasks, t.id < generate_id tasks) ∧
    generate_id tasksOneThreeFive = 6 := by
  refine ⟨fun tasks h => by rw [h]; rfl, ?_, by decide⟩
  intro tasks hne
  match tasks, hne with
  | t0 :: rest, _ =>
    have hgen : generate_id (t0 :: rest) =
        listMaxInt (t0.id :: rest.map fun t => t.id) + 1 := by
      simp [generate_id]
    constructor
    · have hmem : listMaxInt (t0.id :: rest.map fun t => t.id) ∈
          (t0 :: rest).map fun t => t.id := by
        simpa using listMaxInt_mem t0.id (rest.map fun t => t.id)
      obtain ⟨t, ht, hid⟩ := List.mem_map.mp hmem
      exact ⟨t, ht, by rw [hgen, hid]⟩
    · intro t ht
      have hmem : t.id ∈ t0.id :: rest.map fun t => t.id := by
        simpa using List.mem_map_of_mem (fun t => t.id) ht
      have hle := le_listMaxInt t0.id (rest.map fun t => t.id) t.id hmem
      rw [hgen]
      omega

/-- Witness for C2 at the concrete collections of the spec's example. -/
theorem generate_id_one_plus_max_witness :
    generate_id ([] : List Task) = 1 ∧
    tasksOneThreeFive ≠ [] ∧
    ((∃ t ∈ tasksOneThreeFive, generate_id tasksOneThreeFive = t.id + 1) ∧
      ∀ t ∈ tasksOneThreeFive, t.id < generate_id tasksOneThreeFive) :=
  ⟨generate_id_one_plus_max.1 [] rfl, by decide,
    generate_id_one_plus_max.2.1 tasksOneThreeFive (by decide)⟩

/-- C3: whenever `parse_date` succeeds its output is the canonical
`YYYY-MM-DD` rendering of a constructible calendar date, whatever input
format matched; the four example inputs all normalize to `2025-11-12`. -/
theorem parse_date_normalizes :
    (∀ s : String, parse_date s ≠ "" →
      ∃ d : Date, validDate d = true ∧ parse_date s = isoformat d) ∧
    parse_date "2025-11-12" = "2025-11-12" ∧
    parse_date "12/11/2025" = "2025-11-12" ∧
    parse_date "Nov 12 2025" = "2025-11-12" ∧
    parse_date "12 November 2025" = "2025-11-12" := by
  refine ⟨fun s hs => ?_, by decide, by decide, by decide, by decide⟩
  rcases parse_date_canonical s with h | h
  · exact absurd h hs
  · exact h

/-- Witness for C3 on an input matching the `%b %d %Y` format. -/
theorem parse_date_normalizes_witness :
    parse_date "Dec 1 2024" ≠ "" ∧
    ∃ d : Date, validDate d = true ∧ parse_date "Dec 1 2024" = isoformat d :=
  ⟨by decide, parse_date_normalizes.1 "Dec 1 2024" (by decide)⟩

/-- C4 counterexample: `parse_date` returns the same empty string for
empty input and for unparseable input — contrary to the claim, the two
outcomes of the normalizer are not observably different to the caller. -/
theorem parse_date_conflates_no_date_and_unparseable :
    parse_date "" = "" ∧ parse_date "not a date" = "" ∧
    parse_date "not a date" = parse_date "" := by decide

/-- C4 amended: the normalizer itself returns `""` both for empty and for
unparseable input; the distinction the spec describes is implemented at
the call site of the edit flow, which never hands blank input to the
normalizer — for an existing task, editing with the unparseable due input
`"not a date"` keeps the collection unchanged and reports a parse failure,
while editing with a blank due input reports none. -/
theorem normalizer_outcomes_distinguished_by_edit_caller :
    parse_date "" = "" ∧ parse_date "not a date" = "" ∧
    (∀ (tasks : List Task) (i : Int), (find_task_by_id tasks i).isSome = true →
      (edit_task tasks i "" "not a date").parseFailed = true ∧
      (edit_task tasks i "" "not a date").tasks = tasks ∧
      (edit_task tasks i "" "").parseFailed = false) := by
  refine ⟨by decide, by decide, fun tasks i h => ?_⟩
  obtain ⟨t0, ht⟩ := Option.isSome_iff_exists.mp h
  refine ⟨?_, ?_, ?_⟩
  · simp only [edit_task, ht]
    decide
  · simp only [edit_task, ht]
    exact updateFirst_eq_self _ editTaskFields_unparseable tasks i
  · simp only [edit_task, ht]
    decide

/-- Witness for C4's amended claim on the example collection. -/
theorem normalizer_outcomes_witness :
    (find_task_by_id exampleTasks 1).isSome = true ∧
    ((edit_task exampleTasks 1 "" "not a date").parseFailed = true ∧
      (edit_task exampleTasks 1 "" "not a date").tasks = exampleTasks ∧
      (edit_task exampleTasks 1 "" "").parseFailed = false) :=
  ⟨by decide,
    normalizer_outcomes_distinguished_by_edit_caller.2.2 exampleTasks 1 (by decide)⟩

/-- C5: declined operations leave the collection unchanged — `add_task`
with a title that is blank after stripping does not mutate (and does not
save), and `mark_complete`, `delete_task`, `edit_task` on an id that
matches no task report not-found and do not mutate. -/
theorem declined_operations_do_not_mutate (tasks : List Task)
    (title_input due_input created_at : String) (i : Int) (t_in d_in : String) :
    (pyStrip title_input = "" →
      add_task tasks title_input due_input created_at = (tasks, false)) ∧
    (find_task_by_id tasks i = none →
      mark_complete tasks i = ⟨tasks, false, false⟩ ∧
      delete_task tasks i = ⟨tasks, false, false⟩ ∧
      edit_task tasks i t_in d_in = ⟨tasks, false, false, false⟩) := by
  constructor
  · intro h
    simp [add_task, h]
  · intro h
    refine ⟨?_, ?_, ?_⟩
    · simp [mark_complete, h]
    · simp [delete_task, h]
    · simp [edit_task, h]

/-- Witness for C5: blank title and the absent id 99 on the example
collection. -/
theorem declined_operations_witness :
    (pyStrip "   " = "" ∧
      add_task exampleTasks "   " "2025-01-01" "t5" = (exampleTasks, false)) ∧
    (find_task_by_id exampleTasks 99 = none ∧
      (mark_complete exampleTasks 99 = ⟨exampleTasks, false, false⟩ ∧
        delete_task exampleTasks 99 = ⟨exampleTasks, false, false⟩ ∧
        edit_task exampleTasks 99 "x" "y" = ⟨exampleTasks, false, false, false⟩)) :=
  ⟨⟨by decide,
      (declined_operations_do_not_mutate exampleTasks "   " "2025-01-01" "t5" 99 "x" "y").1
        (by decide)⟩,
    ⟨by decide,
      (declined_operations_do_not_mutate exampleTasks "   " "2025-01-01" "t5" 99 "x" "y").2
        (by decide)⟩⟩

/-- C6: on an existing task, `edit_task` replaces the title only when the
new title is non-blank after stripping; a case-insensitive `clear` due
input sets the due date to absent, a blank due input keeps it, a value
that normalizes replaces it, and a value that fails to normalize keeps it
while a parse failure is reported; blank title and blank due date leave
the task (and the whole collection) unchanged. -/
theorem edit_task_field_semantics (tasks : List Task) (i : Int)
    (title_input due_input : String) (t0 : Task)
    (h : find_task_by_id tasks i = some t0) :
    ∃ t1 : Task,
      find_task_by_id (edit_task tasks i title_input due_input).tasks i = some t1 ∧
      t1.title = (if pyStrip title_input = "" then t0.title else pyStrip title_input) ∧
      t1.due_date =
        (if pyLower (pyStrip due_input) = "clear" then ""
         else if pyStrip due_input = "" then t0.due_date
         else if parse_date (pyStrip due_input) = "" then t0.due_date
         else parse_date (pyStrip due_input)) ∧
      t1.id = t0.id ∧ t1.completed = t0.completed ∧ t1.created_at = t0.created_at ∧
      (pyStrip title_input = "" → pyStrip due_input = "" →
        (edit_task tasks i title_input due_input).tasks = tasks) ∧
      ((pyLower (pyStrip due_input) ≠ "clear" ∧ pyStrip due_input ≠ "" ∧
          parse_date (pyStrip due_input) = "") →
        (edit_task tasks i title_input due_input).parseFailed = true) := by
  have htasks : (edit_task tasks i title_input due_input).tasks =
      updateFirst tasks i (editTaskFields title_input due_input) := by
    simp only [edit_task, h]
  refine ⟨editTaskFields title_input due_input t0, ?_, ?_, ?_, ?_, ?_, ?_, ?_, ?_⟩
  · rw [htasks, find_updateFirst _ (editTaskFields_same_id title_input due_input), h]
    rfl
  · exact editTaskFields_title title_input due_input t0
  · exact editTaskFields_due title_input due_input t0
  · exact editTaskFields_same_id title_input due_input t0
  · exact editTaskFields_same_completed title_input due_input t0
  · exact editTaskFields_same_created title_input due_input t0
  · intro hb1 hb2
    rw [htasks]
    refine updateFirst_eq_self _ (fun t => ?_) tasks i
    have hnc : pyLower (pyStrip due_input) ≠ "clear" := by
      rw [hb2, pyLower_empty]
      decide
    rw [editTaskFields_spec]
    simp [hb1, hb2, hnc, pyLower_empty]
  · intro ⟨hc1, hc2, hc3⟩
    simp only [edit_task, h]
    show editParseFailed due_input = true
    unfold editParseFailed
    simp [hc1, hc2, hc3]

/-- Witness for C6: editing task 1 of the example collection with a new
title and a due date in `DD/MM/YYYY` form. -/
theorem edit_task_field_semantics_witness :
    find_task_by_id exampleTasks 1 = some taskA ∧
    ∃ t1 : Task,
      find_task_by_id (edit_task exampleTasks 1 " New " " 12/11/2025 ").tasks 1 = some t1 ∧
      t1.title = (if pyStrip " New " = "" then taskA.title else pyStrip " New ") ∧
      t1.due_date =
        (if pyLower (pyStrip " 12/11/2025 ") = "clear" then ""
         else if pyStrip " 12/11/2025 " = "" then taskA.due_date
         else if parse_date (pyStrip " 12/11/2025 ") = "" then taskA.due_date
         else parse_date (pyStrip " 12/11/2025 ")) ∧
      t1.id = taskA.id ∧ t1.completed = taskA.completed ∧ t1.created_at = taskA.created_at ∧
      (pyStrip " New " = "" → pyStrip " 12/11/2025 " = "" →
        (edit_task exampleTasks 1 " New " " 12/11/2025 ").tasks = exampleTasks) ∧
      ((pyLower (pyStrip " 12/11/2025 ") ≠ "clear" ∧ pyStrip " 12/11/2025 " ≠ "" ∧
          parse_date (pyStrip " 12/11/2025 ") = "") →
        (edit_task exampleTasks 1 " New " " 12/11/2025 ").parseFailed = true) :=
  ⟨by decide, edit_task_field_semantics exampleTasks 1 " New " " 12/11/2025 " taskA (by decide)⟩

/-- C7: toggling completion twice on the same existing id restores the
collection — in particular the original `completed` value of that task. -/
theorem mark_complete_twice_restores (tasks : List Task) (i : Int)
    (h : (find_task_by_id tasks i).isSome = true) :
    (mark_complete (mark_complete tasks i).tasks i).tasks = tasks := by
  obtain ⟨t0, ht⟩ := Option.isSome_iff_exists.mp h
  have hfid : ∀ t : Task, ({ t with completed := !t.completed } : Task).id = t.id :=
    fun t => rfl
  have h1 : (mark_complete tasks i).tasks =
      updateFirst tasks i (fun t => { t with completed := !t.completed }) := by
    simp only [mark_complete, ht]
  rw [h1]
  have h2 : find_task_by_id
      (updateFirst tasks i (fun t => { t with completed := !t.completed })) i =
      some { t0 with completed := !t0.completed } := by
    rw [find_updateFirst _ hfid, ht]
    rfl
  simp only [mark_complete, h2]
  rw [updateFirst_updateFirst _ _ hfid]
  exact updateFirst_eq_self _ (fun t => by cases t; simp) tasks i

/-- Witness for C7: double toggle of task 2 on the example collection. -/
theorem mark_complete_twice_restores_witness :
    (find_task_by_id exampleTasks 2).isSome = true ∧
    (mark_complete (mark_complete exampleTasks 2).tasks 2).tasks = exampleTasks :=
  ⟨by decide, mark_complete_twice_restores exampleTasks 2 (by decide)⟩

/-- C8: the canonical-due-date invariant is preserved by every operation —
starting from a collection whose stored due dates are absent or canonical,
`add_task`, `edit_task`, `mark_complete` and `delete_task` only ever store
the output of the date normalizer or the absent value. -/
theorem operations_preserve_canonical_due_dates (tasks : List Task)
    (hc : ∀ t ∈ tasks, canonicalDue t.due_date)
    (title_input due_input created_at : String) (i : Int) (ti di : String) :
    (∀ t ∈ (add_task tasks title_input due_input created_at).1, canonicalDue t.due_date) ∧
    (∀ t ∈ (edit_task tasks i ti di).tasks, canonicalDue t.due_date) ∧
    (∀ t ∈ (mark_complete tasks i).tasks, canonicalDue t.due_date) ∧
    (∀ t ∈ (delete_task tasks i).tasks, canonicalDue t.due_date) := by
  refine ⟨?_, ?_, ?_, ?_⟩
  · intro t ht
    simp only [add_task] at ht
    split at ht
    · exact hc t ht
    · rcases List.mem_append.mp ht with h1 | h1
      · exact hc t h1
      · rcases List.mem_singleton.mp h1 with rfl
        exact parse_date_canonical due_input
  · intro t ht
    simp only [edit_task] at ht
    split at ht
    · exact hc t ht
    · rcases mem_updateFirst ht with h1 | ⟨t0, ht0, rfl⟩
      · exact hc t h1
      · rw [editTaskFields_due]
        split
        · exact Or.inl rfl
        · split
          · exact hc t0 ht0
          · split
            · exact hc t0 ht0
            · exact parse_date_canonical (pyStrip di)
  · intro t ht
    simp only [mark_complete] at ht
    split at ht
    · exact hc t ht
    · rcases mem_updateFirst ht with h1 | ⟨t0, ht0, rfl⟩
      · exact hc t h1
      · exact hc t0 ht0
  · intro t ht
    simp only [delete_task] at ht
    split at ht
    · exact hc t ht
    · exact hc t (List.mem_of_mem_erase ht)

/-- Witness for C8 on the example collection (all of whose due dates are
canonical). -/
theorem operations_preserve_canonical_due_dates_witness :
    (∀ t ∈ exampleTasks, canonicalDue t.due_date) ∧
    ((∀ t ∈ (add_task exampleTasks "title" "12/11/2025" "t5").1, canonicalDue t.due_date) ∧
      (∀ t ∈ (edit_task exampleTasks 1 "x" "2025-01-01").tasks, canonicalDue t.due_date) ∧
      (∀ t ∈ (mark_complete exampleTasks 1).tasks, canonicalDue t.due_date) ∧
      (∀ t ∈ (delete_task exampleTasks 1).tasks, canonicalDue t.due_date)) :=
  have hc : ∀ t ∈ exampleTasks, canonicalDue t.due_date := by
    intro t ht
    simp only [exampleTasks, List.mem_cons, List.not_mem_nil, or_false] at ht
    rcases ht with rfl | rfl | rfl | rfl
    · exact Or.inr ⟨⟨2025, 6, 14⟩, by decide, by decide⟩
    · exact Or.inr ⟨⟨2025, 6, 15⟩, by decide, by decide⟩
    · exact Or.inr ⟨⟨2025, 6, 16⟩, by decide, by decide⟩
    · exact Or.inr ⟨⟨2025, 6, 14⟩, by decide, by decide⟩
  ⟨hc, operations_preserve_canonical_due_dates exampleTasks hc "title" "12/11/2025" "t5"
    1 "x" "2025-01-01"⟩

/-- C9: a filter kind outside the recognised set matches no branch of the
`elif` chain, so the filter engine returns the empty list (never an error
and never the full collection). -/
theorem unknown_filter_yields_empty (tasks : List Task) (today : Date) (fb : Option String)
    (h0 : fb ≠ none) (h1 : fb ≠ some "all") (h2 : fb ≠ some "completed")
    (h3 : fb ≠ some "incomplete") (h4 : fb ≠ some "due_today") (h5 : fb ≠ some "overdue") :
    filterTasks tasks fb today = [] := by
  have hm : ∀ t, matchesFilter fb today t = false := by
    intro t
    unfold matchesFilter
    rw [if_neg (fun hor => hor.elim h0 h1), if_neg h2, if_neg h3, if_neg h4, if_neg h5]
  unfold filterTasks
  induction tasks with
  | nil => rfl
  | cons t rest ih =>
    rw [List.filter_cons, hm]
    simpa using ih

/-- Witness for C9: the unrecognised filter kind `"bogus"` on the
(non-empty) example collection. -/
theorem unknown_filter_yields_empty_witness :
    (some "bogus" ≠ (none : Option String)) ∧ some "bogus" ≠ some "all" ∧
    some "bogus" ≠ some "completed" ∧ some "bogus" ≠ some "incomplete" ∧
    some "bogus" ≠ some "due_today" ∧ some "bogus" ≠ some "overdue" ∧
    filterTasks exampleTasks (some "bogus") exampleToday = [] :=
  ⟨by decide, by decide, by decide, by decide, by decide, by decide,
    unknown_filter_yields_empty exampleTasks exampleToday (some "bogus")
      (by decide) (by decide) (by decide) (by decide) (by decide) (by decide)⟩

/-- C10: once the task is found, `edit_task` saves the collection
unconditionally — in particular with blank title and blank due date, where
no field of any task changes. -/
theorem edit_task_saves_unconditionally (tasks : List Task) (i : Int)
    (title_input due_input : String) (h : (find_task_by_id tasks i).isSome = true) :
    (edit_task tasks i title_input due_input).saved = true ∧
    (edit_task tasks i "" "").saved = true ∧
    (edit_task tasks i "" "").tasks = tasks := by
  obtain ⟨t0, ht⟩ := Option.isSome_iff_exists.mp h
  refine ⟨?_, ?_, ?_⟩
  · simp only [edit_task, ht]
  · simp only [edit_task, ht]
  · simp only [edit_task, ht]
    exact updateFirst_eq_self _ editTaskFields_blank tasks i

/-- Witness for C10: a no-op edit of task 2 on the example collection
still saves. -/
theorem edit_task_saves_unconditionally_witness :
    (find_task_by_id exampleTasks 2).isSome = true ∧
    ((edit_task exampleTasks 2 "T" "12/11/2025").saved = true ∧
      (edit_task exampleTasks 2 "" "").saved = true ∧
      (edit_task exampleTasks 2 "" "").tasks = exampleTasks) :=
  ⟨by decide, edit_task_saves_unconditionally exampleTasks 2 "T" "12/11/2025" (by decide)⟩

end Todo
